import Mathlib

/-!
Shallow embedding of the coverage-improvement backend: job status state
machines, the CoverageFile entity, the cancel-job command, the coverage
parser and reconciliation pass, and the JobOrchestrator / JobProcessor
pipelines, together with theorems about the behaviour of these models.
Percentages are modelled as rationals and the JavaScript Math.round as
the Mathlib round function, which rounds half up.
-/

namespace CoverageImprover

/-! ## Job status value object (JobStatus.ts) -/

inductive JobStatusValue where
  | pending
  | running
  | completed
  | failed
deriving DecidableEq, Repr, Fintype

/-- String form of a job status, as used in error messages. -/
def JobStatusValue.str : JobStatusValue → String
  | .pending => "pending"
  | .running => "running"
  | .completed => "completed"
  | .failed => "failed"

/-- JobStatus.canTransitionTo: pending to running, running to completed,
running to failed; nothing else. -/
def canTransitionTo : JobStatusValue → JobStatusValue → Bool
  | .pending, .running => true
  | .running, .completed => true
  | .running, .failed => true
  | _, _ => false

/-! ## ImprovementJob entity (ImprovementJob.ts) -/

structure ImpJob where
  status : JobStatusValue
  error : Option String
  prUrl : Option String
deriving DecidableEq, Repr

/-- ImprovementJob.transitionTo: guarded status change. -/
def impJobTransitionTo (j : ImpJob) (s : JobStatusValue) : Except String ImpJob :=
  if canTransitionTo j.status s then .ok { j with status := s }
  else .error ("Invalid status transition from " ++ j.status.str ++ " to " ++ s.str)

/-- ImprovementJob.start. -/
def impJobStart (j : ImpJob) : Except String ImpJob :=
  impJobTransitionTo j .running

/-- ImprovementJob.complete: transition to completed, store the PR URL. -/
def impJobComplete (j : ImpJob) (url : String) : Except String ImpJob :=
  (impJobTransitionTo j .completed).map fun j2 => { j2 with prUrl := some url }

/-- ImprovementJob.fail: transition to failed, store the error message. -/
def impJobFail (j : ImpJob) (msg : String) : Except String ImpJob :=
  (impJobTransitionTo j .failed).map fun j2 => { j2 with error := some msg }

/-! ## AnalysisJob entity (AnalysisJob.ts) -/

structure AnaJob where
  status : JobStatusValue
  error : Option String
  filesFound : Nat
  filesBelowThreshold : Nat
deriving DecidableEq, Repr

/-- AnalysisJob.start: only a pending job may start. -/
def anaJobStart (j : AnaJob) : Except String AnaJob :=
  if j.status ≠ .pending then
    .error ("Cannot start job in " ++ j.status.str ++ " status")
  else .ok { j with status := .running }

/-- AnalysisJob.complete: only a running job may complete. -/
def anaJobComplete (j : AnaJob) (found below : Nat) : Except String AnaJob :=
  if j.status ≠ .running then
    .error ("Cannot complete job in " ++ j.status.str ++ " status")
  else .ok { j with status := .completed, filesFound := found, filesBelowThreshold := below }

/-- AnalysisJob.fail: the source guard rejects only completed and failed,
so both running and pending jobs may be failed. -/
def anaJobFail (j : AnaJob) (msg : String) : Except String AnaJob :=
  if j.status ≠ .running ∧ j.status ≠ .pending then
    .error ("Cannot fail job in " ++ j.status.str ++ " status")
  else .ok { j with status := .failed, error := some msg }

/-! ## CoverageFile entity (CoverageFile.ts) -/

inductive CovStatus where
  | pending
  | improving
  | improved
deriving DecidableEq, Repr

/-- String form of a coverage-file status, as used in error messages. -/
def CovStatus.str : CovStatus → String
  | .pending => "pending"
  | .improving => "improving"
  | .improved => "improved"

structure CovFile where
  path : String
  status : CovStatus
  percentage : ℚ
  uncoveredLines : List Nat
deriving DecidableEq, Repr

/-- CoverageFile.markAsImproving: only a pending file may start improving. -/
def covMarkAsImproving (f : CovFile) : Except String CovFile :=
  if f.status ≠ .pending then
    .error ("Cannot start improving file in status: " ++ f.status.str)
  else .ok { f with status := .improving }

/-- CoverageFile.markAsImproved: only an improving file may be marked
improved; the new coverage and uncovered lines are stored. -/
def covMarkAsImproved (f : CovFile) (q : ℚ) (lines : List Nat) : Except String CovFile :=
  if f.status ≠ .improving then
    .error ("Cannot mark as improved from status: " ++ f.status.str)
  else .ok { f with status := .improved, percentage := q, uncoveredLines := lines }

/-- CoverageFile.resetToPending: unguarded, sets pending from any status. -/
def covResetToPending (f : CovFile) : CovFile :=
  { f with status := .pending }

/-- CoverageFile.updateCoverage: unguarded data update, status unchanged. -/
def covUpdateCoverage (f : CovFile) (q : ℚ) (lines : List Nat) : CovFile :=
  { f with percentage := q, uncoveredLines := lines }

/-! ## CancelJob command (CancelJob.ts) -/

/-- CancelJobCommand.execute over an ImprovementJob: reject jobs already
completed or failed, otherwise call ImprovementJob.fail with the
cancellation message and reset the coverage file to pending. -/
def cancelJob (job : Option ImpJob) (file : Option CovFile) :
    Except String (ImpJob × Option CovFile) :=
  match job with
  | none => .error "Job not found"
  | some j =>
    if j.status = .completed ∨ j.status = .failed then
      .error ("Cannot cancel job in " ++ j.status.str ++ " state")
    else
      match impJobFail j "Job cancelled by user" with
      | .error m => .error m
      | .ok j2 => .ok (j2, file.map covResetToPending)

/-! ## String helpers (Node path and String semantics over the character
list, which coincides with the JavaScript code-unit view on the ASCII
paths this system handles) -/

/-- JavaScript String.prototype.startsWith. -/
def strStartsWith (s pat : String) : Bool :=
  pat.toList.isPrefixOf s.toList

/-- JavaScript String.prototype.endsWith. -/
def strEndsWith (s pat : String) : Bool :=
  pat.toList.isSuffixOf s.toList

/-- JavaScript String.prototype.includes. -/
def strIncludes (s pat : String) : Bool :=
  (List.range (s.length + 1)).any (fun i => pat.toList.isPrefixOf (s.toList.drop i))

/-- JavaScript String.prototype.slice from a character index. -/
def strDropN (s : String) (n : Nat) : String :=
  String.mk (s.toList.drop n)

/-- JavaScript String.prototype.lastIndexOf: -1 when absent. -/
def lastIdx (s pat : String) : Int :=
  match ((List.range (s.length + 1)).filter
      (fun i => pat.toList.isPrefixOf (s.toList.drop i))).getLast? with
  | some i => (i : Int)
  | none => -1

/-- JavaScript String.prototype.replace with a string pattern: replaces
only the first occurrence. -/
def replaceFirst (s pat rep : String) : String :=
  match ((List.range (s.length + 1)).filter
      (fun i => pat.toList.isPrefixOf (s.toList.drop i))).head? with
  | some i => String.mk (s.toList.take i) ++ rep ++ String.mk (s.toList.drop (i + pat.length))
  | none => s

/-- Node path.basename for slash-separated relative paths. -/
def pathBase (p : String) : String :=
  String.mk (p.toList.reverse.takeWhile (fun c => c ≠ '/')).reverse

/-- Node path.dirname for slash-separated relative paths. -/
def pathDir (p : String) : String :=
  let cs := p.toList
  if cs.contains '/' then String.mk ((cs.reverse.dropWhile (fun c => c ≠ '/')).drop 1).reverse
  else "."

/-- JobOrchestrator.isTestFile / JobProcessor.isTestFile. -/
def isTestFile (p : String) : Bool :=
  strEndsWith p ".test.ts" ∨ strEndsWith p ".spec.ts" ∨
  strEndsWith p ".test.js" ∨ strEndsWith p ".spec.js"

/-! ## CoverageParser (CoverageParser.ts) -/

/-- CoverageParser.normalizePath: strip the project root when it prefixes
the path, otherwise cut at the rightmost conventional source-root marker. -/
def normalizePath (projectRoot p : String) : String :=
  if projectRoot ≠ "" ∧ strStartsWith p projectRoot then
    let rel := strDropN p projectRoot.length
    if strStartsWith rel "/" then strDropN rel 1 else rel
  else
    let best := ["/src/", "/lib/", "/app/"].foldl
      (fun (acc : Int) pat => let idx := lastIdx p pat; if idx > acc then idx else acc) (-1)
    if best ≠ -1 then strDropN p (best.toNat + 1) else p

structure StmtLoc where
  startLine : Nat
  endLine : Nat
deriving DecidableEq, Repr

/-- One entry of an Istanbul coverage-final.json: the statement map and
the per-statement hit counts, in object-key order. -/
structure IstanbulFileCov where
  statementMap : List (String × StmtLoc)
  s : List (String × Nat)
deriving DecidableEq, Repr

/-- Lookup in a JavaScript-object association list. -/
def alistLookup (l : List (String × Nat)) (k : String) : Option Nat :=
  (l.find? (fun kv => kv.1 = k)).map (fun kv => kv.2)

structure FileCov where
  path : String
  linesCovered : Nat
  linesTotal : Nat
  percentage : ℚ
  uncoveredLines : List Nat
deriving DecidableEq, Repr

structure CovReport where
  files : List FileCov
  totalCoverage : ℚ
deriving DecidableEq, Repr

/-- Math.round(q * 100) / 100, with Math.round as round-half-up. -/
def round2 (q : ℚ) : ℚ := ((round (q * 100) : ℤ) : ℚ) / 100

/-- Retained paths: .ts files that are not test files
(parseIstanbulJson and parseLcov skip the rest). -/
def keepTsPath (p : String) : Bool :=
  strEndsWith p ".ts" ∧ ¬ strEndsWith p ".spec.ts" ∧ ¬ strEndsWith p ".test.ts"

/-- The sort spread over a JavaScript Set of line numbers: deduplicate,
then sort ascending. -/
def dedupSortAsc (l : List Nat) : List Nat :=
  (l.dedup).insertionSort (fun a b => a ≤ b)

/-- Sort files ascending by percentage (stable, as Array.prototype.sort). -/
def sortByPercentage (files : List FileCov) : List FileCov :=
  files.insertionSort (fun a b => a.percentage ≤ b.percentage)

/-- The per-file body of CoverageParser.parseIstanbulJson. -/
def parseIstanbulEntry (projectRoot p : String) (cov : IstanbulFileCov) : FileCov :=
  let linesTotal := cov.statementMap.length
  let linesCovered := (cov.s.filter (fun kv => 0 < kv.2)).length
  let percentage : ℚ :=
    if 0 < linesTotal then ((linesCovered : ℚ) / (linesTotal : ℚ)) * 100 else 100
  let uncovered := (cov.statementMap.filter
    (fun kv => alistLookup cov.s kv.1 = some 0)).map (fun kv => kv.2.startLine)
  { path := normalizePath projectRoot p
    linesCovered := linesCovered
    linesTotal := linesTotal
    percentage := round2 percentage
    uncoveredLines := dedupSortAsc uncovered }

/-- CoverageParser.parseIstanbulJson over the decoded JSON object. -/
def parseIstanbulJson (projectRoot : String) (data : List (String × IstanbulFileCov)) :
    CovReport :=
  let retained := data.filter (fun kv => keepTsPath kv.1)
  let files := retained.map (fun kv => parseIstanbulEntry projectRoot kv.1 kv.2)
  let totalCovered : Nat := (files.map (fun f => f.linesCovered)).sum
  let totalLines : Nat := (files.map (fun f => f.linesTotal)).sum
  let totalCoverage : ℚ :=
    if 0 < totalLines then ((totalCovered : ℚ) / (totalLines : ℚ)) * 100 else 100
  { files := sortByPercentage files, totalCoverage := round2 totalCoverage }

/-! ## Reconciliation pass (AnalyzeCoverage.ts / AnalysisJobProcessor.ts) -/

/-- The synthetic entry injected for a scanned source file absent from the
parsed report. -/
def syntheticEntry (p : String) : FileCov :=
  { path := p, linesCovered := 0, linesTotal := 1, percentage := 0, uncoveredLines := [1] }

/-- The injection loop: every scanned file whose path is not among the
parsed paths is appended as a synthetic zero-coverage entry. -/
def injectMissing (files : List FileCov) (scanned : List String) : List FileCov :=
  files ++ (scanned.filter (fun p => ¬ (files.map (fun f => f.path)).contains p)).map syntheticEntry

/-- The reconciliation pass: inject missing scanned files, recompute the
aggregate total over the union, re-sort ascending by percentage. -/
def reconcile (report : CovReport) (scanned : List String) : CovReport :=
  let files := injectMissing report.files scanned
  let totalCovered : Nat := (files.map (fun f => f.linesCovered)).sum
  let totalLines : Nat := (files.map (fun f => f.linesTotal)).sum
  let total : ℚ :=
    if 0 < totalLines then round2 (((totalCovered : ℚ) / (totalLines : ℚ)) * 100) else 0
  { files := sortByPercentage files, totalCoverage := total }

/-! ## JobOrchestrator: target-file matching and the retry loop -/

/-- The three-tier matcher of JobOrchestrator.executeJob: exact path,
then basename with parent-directory context, then basename only. -/
def findFileCoverage (files : List FileCov) (target : String) : Option FileCov :=
  match files.find? (fun f => f.path = target) with
  | some f => some f
  | none =>
    let tb := pathBase target
    let td := pathDir target
    match files.find? (fun f => strEndsWith f.path ("/" ++ tb) ∧ strIncludes f.path (pathBase td)) with
    | some f => some f
    | none => files.find? (fun f => pathBase f.path = tb)

/-- The externally observable outcome of one loop attempt: whether an
awaited call rejected, which test files the AI changed, whether the
expected test path exists, whether the content validates, and the
coverage report measured after the test run. -/
structure AttemptEnv where
  crash : Option String
  expectedTestExists : Bool
  newTestFiles : List String
  validContent : Bool
  report : CovReport

structure LoopCfg where
  maxRetries : Nat
  coverageThreshold : ℚ
  targetPath : String
  expectedTestPath : String

/-- The mutable loop-local state of the retry loop, plus the record of
coverage-file saves performed during the loop. -/
structure LoopState where
  attempt : Nat
  currentCoverage : ℚ
  currentUncoveredLines : List Nat
  generatedTestPath : Option String
  savedCov : List (ℚ × List Nat)
deriving DecidableEq, Repr

inductive StepRes where
  | next (st : LoopState)
  | exit (st : LoopState)
  | failure (msg : String)
deriving DecidableEq, Repr

/-- One iteration of the retry loop of JobOrchestrator.executeJob. -/
def loopBody (cfg : LoopCfg) (env : AttemptEnv) (st : LoopState) : StepRes :=
  match env.crash with
  | some m => .failure m
  | none =>
    let attempt := st.attempt + 1
    if ¬ env.expectedTestExists ∧ env.newTestFiles = [] then
      if attempt < cfg.maxRetries then .next { st with attempt := attempt }
      else .failure "AI failed to create test file after all attempts"
    else
      let gp := env.newTestFiles.headD cfg.expectedTestPath
      let st1 := { st with attempt := attempt, generatedTestPath := some gp }
      if ¬ env.validContent then
        if attempt < cfg.maxRetries then .next st1
        else .failure "AI failed to generate valid test content after all attempts"
      else
        match findFileCoverage env.report.files cfg.targetPath with
        | some fc =>
          let st2 := { st1 with
            currentCoverage := fc.percentage
            currentUncoveredLines := fc.uncoveredLines
            savedCov := st1.savedCov ++ [(fc.percentage, fc.uncoveredLines)] }
          if st2.currentCoverage ≥ cfg.coverageThreshold then .exit st2 else .next st2
        | none =>
          let st2 := { st1 with currentCoverage := env.report.totalCoverage }
          if st2.currentCoverage ≥ cfg.coverageThreshold then .exit st2 else .next st2

inductive LoopExit where
  | finished (st : LoopState)
  | errored (st : LoopState) (msg : String)
deriving DecidableEq, Repr

/-- State carried by a loop exit. -/
def LoopExit.state : LoopExit → LoopState
  | .finished st => st
  | .errored st _ => st

/-- The while loop, with fuel; each iteration increments the attempt
counter, so fuel equal to maxRetries is exact. -/
def improveLoopAux (cfg : LoopCfg) (envs : Nat → AttemptEnv) : Nat → LoopState → LoopExit
  | 0, st => .finished st
  | fuel + 1, st =>
    if st.attempt < cfg.maxRetries ∧ st.currentCoverage < cfg.coverageThreshold then
      match loopBody cfg (envs st.attempt) st with
      | .next st2 => improveLoopAux cfg envs fuel st2
      | .exit st2 => .finished st2
      | .failure m => .errored st m
    else .finished st

/-- The retry loop of JobOrchestrator.executeJob. -/
def improveLoop (cfg : LoopCfg) (envs : Nat → AttemptEnv) (st : LoopState) : LoopExit :=
  improveLoopAux cfg envs cfg.maxRetries st

/-! ## JobOrchestrator.executeJob -/

/-- The external environment of one JobOrchestrator.executeJob run. -/
structure OrchEnv where
  jobStatus0 : JobStatusValue
  repoFound : Bool
  fileFound : Bool
  file0 : CovFile
  cloneOk : Bool
  installOk : Bool
  branchOk : Bool
  sourceExists : Bool
  testFilePath : Option String
  attempts : Nat → AttemptEnv
  postLoopChanged : List String
  commitOk : Bool
  prOk : Bool
  prUrlOk : Bool
  prUrl : String
  maxRetries : Nat
  coverageThreshold : ℚ
  targetPath : String

/-- The observable world state: job fields, coverage-file fields, how
many commits and pull requests were created, and cleanup tracking. -/
structure World where
  jobStatus : JobStatusValue
  jobError : Option String
  jobPrUrl : Option String
  fileStatus : CovStatus
  fileCov : ℚ
  fileUnc : List Nat
  commits : Nat
  prs : Nat
  clonePathSet : Bool
  cleanupRan : Bool
deriving DecidableEq, Repr

def initWorld (env : OrchEnv) : World :=
  { jobStatus := env.jobStatus0, jobError := none, jobPrUrl := none,
    fileStatus := env.file0.status, fileCov := env.file0.percentage,
    fileUnc := env.file0.uncoveredLines,
    commits := 0, prs := 0, clonePathSet := false, cleanupRan := false }

/-- Loop configuration built by executeJob: the expected test path is the
existing test file, or the target path with .ts replaced by .test.ts. -/
def orchCfg (env : OrchEnv) : LoopCfg :=
  { maxRetries := env.maxRetries
    coverageThreshold := env.coverageThreshold
    targetPath := env.targetPath
    expectedTestPath := env.testFilePath.getD (replaceFirst env.targetPath ".ts" ".test.ts") }

/-- Initial loop state: the persisted coverage and uncovered lines of the
target file. -/
def orchSt0 (env : OrchEnv) : LoopState :=
  { attempt := 0, currentCoverage := env.file0.percentage,
    currentUncoveredLines := env.file0.uncoveredLines,
    generatedTestPath := none, savedCov := [] }

/-- Replay the in-loop coverageFileRepo.save calls onto the world: the
last save fixes the persisted percentage and uncovered lines. -/
def applySaves (w : World) (st : LoopState) : World :=
  match st.savedCov.getLast? with
  | some ql => { w with fileCov := ql.1, fileUnc := ql.2 }
  | none => w

/-- World after job.start succeeded. -/
def wRun (env : OrchEnv) : World := { initWorld env with jobStatus := .running }

/-- World after the clone path was assigned. -/
def wClone (env : OrchEnv) : World := { wRun env with clonePathSet := true }

/-- World after the retry loop, with its coverage-file saves applied. -/
def wLoop (env : OrchEnv) (st : LoopState) : World := applySaves (wClone env) st

/-- World after commitAndPush succeeded. -/
def wCommit (env : OrchEnv) (st : LoopState) : World :=
  { wLoop env st with commits := (wLoop env st).commits + 1 }

/-- World after createPullRequest succeeded. -/
def wPr (env : OrchEnv) (st : LoopState) : World :=
  { wCommit env st with prs := (wCommit env st).prs + 1 }

/-- World after job.complete. -/
def wCompleted (env : OrchEnv) (st : LoopState) : World :=
  { wPr env st with jobStatus := .completed, jobPrUrl := some env.prUrl }

/-- World after coverageFile.markAsImproved with the achieved coverage
and an empty uncovered-line list. -/
def wImproved (env : OrchEnv) (st : LoopState) : World :=
  { wCompleted env st with
    fileStatus := .improved
    fileCov := st.currentCoverage
    fileUnc := [] }

/-- The try block of JobOrchestrator.executeJob: returns the world after
the block together with the thrown message, if any. -/
def orchTry (env : OrchEnv) : World × Option String :=
  if ¬ canTransitionTo (initWorld env).jobStatus .running then
    (initWorld env, some ("Invalid status transition from "
      ++ (initWorld env).jobStatus.str ++ " to running"))
  else
  if ¬ env.repoFound then (wRun env, some "Repository not found") else
  if ¬ env.fileFound then (wRun env, some "Coverage file not found") else
  if ¬ env.cloneOk then (wClone env, some "Failed to clone repository") else
  if ¬ env.installOk then (wClone env, some "Failed to install dependencies") else
  if ¬ env.branchOk then (wClone env, some "Failed to create branch") else
  if ¬ env.sourceExists then (wClone env, some "Source file not found") else
  match improveLoop (orchCfg env) env.attempts (orchSt0 env) with
  | .errored st m => (wLoop env st, some m)
  | .finished st =>
    match st.generatedTestPath with
    | none => (wLoop env st, some "No test file was generated")
    | some _ =>
      if env.postLoopChanged.filter (fun f => ¬ isTestFile f) ≠ [] then
        (wLoop env st, some "Invalid files modified (only test files allowed)")
      else
      if ¬ env.commitOk then (wLoop env st, some "Failed to commit and push") else
      if ¬ env.prOk then (wCommit env st, some "Failed to create pull request") else
      if ¬ env.prUrlOk then (wPr env st, some "Invalid GitHub PR URL") else
      if ¬ canTransitionTo (wPr env st).jobStatus .completed then
        (wPr env st, some ("Invalid status transition from "
          ++ (wPr env st).jobStatus.str ++ " to completed"))
      else
      if (wCompleted env st).fileStatus ≠ .improving then
        (wCompleted env st, some ("Cannot mark as improved from status: "
          ++ (wCompleted env st).fileStatus.str))
      else
        (wImproved env st, none)

structure OrchResult where
  world : World
  escaped : Option String
deriving DecidableEq, Repr

/-- The finally block: the working directory is cleaned up whenever the
clone path was assigned. -/
def runFinally (w : World) : World :=
  if w.clonePathSet then { w with cleanupRan := true } else w

/-- JobOrchestrator.executeJob: try block, catch handler (job.fail, reset
the coverage file to pending), guaranteed-cleanup finally block. When
job.fail itself throws inside the catch, the exception escapes. -/
def orchExecuteJob (env : OrchEnv) : OrchResult :=
  match orchTry env with
  | (w, none) => { world := runFinally w, escaped := none }
  | (w, some m) =>
    if canTransitionTo w.jobStatus .failed then
      let w1 := { w with jobStatus := .failed, jobError := some m }
      let w2 := if env.fileFound then { w1 with fileStatus := .pending } else w1
      { world := runFinally w2, escaped := none }
    else
      { world := runFinally w,
        escaped := some ("Invalid status transition from " ++ w.jobStatus.str ++ " to failed") }

/-! ## JobProcessor.executeImprovementJob (sandbox iteration)

The unified Job entity of this iteration is not under src (only
JobProcessor calls it); per the spec its status state machine has the
shared shape of section 3, so its guarded transitions are modelled with
canTransitionTo like ImprovementJob. Everything else below follows
JobProcessor.ts. -/

/-- The two-tier matcher of JobProcessor.executeImprovementJob: exact
path, then basename only. -/
def procFindCov (files : List FileCov) (target : String) : Option FileCov :=
  match files.find? (fun f => f.path = target) with
  | some f => some f
  | none => files.find? (fun f => pathBase f.path = pathBase target)

/-- The per-file coverage update of JobProcessor: update and save when a
matching report entry exists, otherwise save unchanged. -/
def procUpdateFile (report : CovReport) (f : CovFile) : CovFile :=
  match procFindCov report.files f.path with
  | some fc => covUpdateCoverage f fc.percentage fc.uncoveredLines
  | none => f

/-- The mark-all-improved loop of JobProcessor: sequential markAsImproved
calls, stopping at the first error. -/
def markAllImproved : List CovFile → (List CovFile × Option String)
  | [] => ([], none)
  | f :: rest =>
    match covMarkAsImproved f f.percentage f.uncoveredLines with
    | .error m => (f :: rest, some m)
    | .ok f2 =>
      let r := markAllImproved rest
      (f2 :: r.1, r.2)

/-- The external environment of one JobProcessor.executeImprovementJob
run. -/
structure ProcEnv where
  jobStatus0 : JobStatusValue
  repoFound : Bool
  filesFoundOk : Bool
  files0 : List CovFile
  sandboxAnalysisOk : Bool
  sourceMatchOk : Bool
  cloneOk : Bool
  aiOk : Bool
  postAiChanged : List String
  allTestContentValid : Bool
  sandboxTestsOk : Bool
  testsPassed : Bool
  report : CovReport
  branchOk : Bool
  postResetChanged : List String
  commitOk : Bool
  prOk : Bool
  prUrl : String

/-- Observable world of the JobProcessor improvement pipeline. -/
structure PWorld where
  jobStatus : JobStatusValue
  jobError : Option String
  files : List CovFile
  committedFiles : List String
  commits : Nat
  prs : Nat
  clonePathSet : Bool
  cleanupRan : Bool
deriving DecidableEq, Repr

def procInitWorld (env : ProcEnv) : PWorld :=
  { jobStatus := env.jobStatus0, jobError := none, files := env.files0,
    committedFiles := [], commits := 0, prs := 0,
    clonePathSet := false, cleanupRan := false }

/-- The try block of JobProcessor.executeImprovementJob. Note that after
resetNonTestFiles there is no re-scan validation: whatever
getChangedFiles returns at commit time is committed. -/
def procTry (env : ProcEnv) (w0 : PWorld) : PWorld × Option String :=
  if ¬ canTransitionTo w0.jobStatus .running then
    (w0, some ("Invalid status transition from " ++ w0.jobStatus.str ++ " to running"))
  else
    let w1 := { w0 with jobStatus := .running }
    if ¬ env.repoFound then (w1, some "Repository not found") else
    if ¬ env.filesFoundOk then (w1, some "Coverage file not found") else
    if ¬ env.sandboxAnalysisOk then (w1, some "Failed to get source files from sandbox") else
    if ¬ env.sourceMatchOk then (w1, some "Source file not found in sandbox") else
    let w2 := { w1 with clonePathSet := true }
    if ¬ env.cloneOk then (w2, some "Failed to clone repository") else
    if ¬ env.aiOk then (w2, some "AI invocation failed") else
    if env.postAiChanged.filter isTestFile = [] then
      (w2, some "AI failed to create any test files")
    else
    if ¬ env.allTestContentValid then (w2, some "Invalid test content") else
    if ¬ env.sandboxTestsOk then (w2, some "Sandbox test run failed") else
    if ¬ env.testsPassed then (w2, some "Generated tests failed") else
    let w3 := { w2 with files := w2.files.map (procUpdateFile env.report) }
    if ¬ env.branchOk then (w3, some "Failed to create branch") else
    if ¬ env.commitOk then (w3, some "Failed to commit and push") else
    let w4 := { w3 with
      committedFiles := env.postResetChanged
      commits := w3.commits + 1 }
    if ¬ env.prOk then (w4, some "Failed to create pull request") else
    let w5 := { w4 with prs := w4.prs + 1 }
    if ¬ canTransitionTo w5.jobStatus .completed then
      (w5, some ("Invalid status transition from " ++ w5.jobStatus.str ++ " to completed"))
    else
      let w6 := { w5 with jobStatus := .completed, jobError := none }
      let r := markAllImproved w6.files
      ({ w6 with files := r.1 }, r.2)

structure ProcResult where
  world : PWorld
  escaped : Option String
deriving DecidableEq, Repr

def procRunFinally (w : PWorld) : PWorld :=
  if w.clonePathSet then { w with cleanupRan := true } else w

/-- JobProcessor.executeImprovementJob: try block, catch handler (job.fail
and reset of every referenced file to pending), guaranteed cleanup. -/
def procExecuteImprovement (env : ProcEnv) : ProcResult :=
  match procTry env (procInitWorld env) with
  | (w, none) => { world := procRunFinally w, escaped := none }
  | (w, some m) =>
    if canTransitionTo w.jobStatus .failed then
      let w1 := { w with
        jobStatus := .failed
        jobError := some m
        files := w.files.map covResetToPending }
      { world := procRunFinally w1, escaped := none }
    else
      { world := procRunFinally w,
        escaped := some ("Invalid status transition from " ++ w.jobStatus.str ++ " to failed") }

/-! ## process-next-job guards (JobProcessor.ts / AnalysisJobProcessor.ts) -/

inductive PJobType where
  | analysis
  | improvement
deriving DecidableEq, Repr

structure QJob where
  id : String
  repositoryId : String
  jtype : PJobType
  status : JobStatusValue
deriving DecidableEq, Repr

/-- IJobRepository.findPending: pending jobs in store order. -/
def findPendingJobs (jobs : List QJob) : List QJob :=
  jobs.filter (fun j => j.status = .pending)

/-- IJobRepository.findRunning(type): running jobs of the given type. -/
def findRunningJobs (jobs : List QJob) (t : PJobType) : List QJob :=
  jobs.filter (fun j => j.status = .running ∧ j.jtype = t)

/-- JobProcessor.processNextJob: dequeue the first pending job; return
none when a running analysis job exists (analysis) or a running
improvement job for the same repository exists (improvement). -/
def processNextJob (jobs : List QJob) : Option QJob :=
  match findPendingJobs jobs with
  | [] => none
  | job :: _ =>
    match job.jtype with
    | .analysis =>
      if 0 < (findRunningJobs jobs .analysis).length then none else some job
    | .improvement =>
      if 0 < ((findRunningJobs jobs .improvement).filter
          (fun j => j.repositoryId = job.repositoryId)).length then none
      else some job

structure AQJob where
  id : String
  status : JobStatusValue
deriving DecidableEq, Repr

/-- AnalysisJobProcessor.processNextJob: dequeue the first pending
analysis job; return none when any running analysis job exists. -/
def analysisProcessNext (jobs : List AQJob) : Option AQJob :=
  match jobs.filter (fun j => j.status = .pending) with
  | [] => none
  | job :: _ =>
    if 0 < (jobs.filter (fun j => j.status = .running)).length then none else some job

/-! ## Concrete fixtures used to instantiate the theorems -/

/-- An attempt in which the AI writes a valid test file and the re-measured
coverage of the target file is 90. -/
def attOk : AttemptEnv :=
  { crash := none, expectedTestExists := false, newTestFiles := ["src/a.test.ts"],
    validContent := true,
    report := { files := [{ path := "src/a.ts", linesCovered := 9, linesTotal := 10,
                            percentage := 90, uncoveredLines := [] }],
                totalCoverage := 90 } }

/-- An attempt whose re-measured coverage stays at 60, below the threshold. -/
def attLow : AttemptEnv :=
  { crash := none, expectedTestExists := false, newTestFiles := ["src/a.test.ts"],
    validContent := true,
    report := { files := [{ path := "src/a.ts", linesCovered := 6, linesTotal := 10,
                            percentage := 60, uncoveredLines := [20, 30] }],
                totalCoverage := 60 } }

/-- An attempt whose coverage report contains no entry matching the target
file under any of the three matchers; the aggregate total is 85. -/
def attNoMatch : AttemptEnv :=
  { crash := none, expectedTestExists := false, newTestFiles := ["src/a.test.ts"],
    validContent := true,
    report := { files := [{ path := "other.md", linesCovered := 1, linesTotal := 1,
                            percentage := 100, uncoveredLines := [] }],
                totalCoverage := 85 } }

/-- Baseline orchestrator environment: pending job, improving target file
at 40 percent, every external call succeeds, attempts reach 90 percent. -/
def envBase : OrchEnv :=
  { jobStatus0 := .pending, repoFound := true, fileFound := true,
    file0 := { path := "src/a.ts", status := .improving, percentage := 40,
               uncoveredLines := [10, 20, 30] },
    cloneOk := true, installOk := true, branchOk := true, sourceExists := true,
    testFilePath := none, attempts := fun _ => attOk,
    postLoopChanged := ["src/a.test.ts"], commitOk := true, prOk := true, prUrlOk := true,
    prUrl := "https://github.com/u/r/pull/1", maxRetries := 3, coverageThreshold := 80,
    targetPath := "src/a.ts" }

/-- Environment whose attempts never reach the threshold. -/
def envLow : OrchEnv := { envBase with attempts := fun _ => attLow }

/-- Environment in which a non-test file remains changed after the revert
pass. -/
def envScope : OrchEnv := { envBase with postLoopChanged := ["src/a.test.ts", "src/evil.ts"] }

/-- Environment whose target coverage file is in pending status when the
job runs (reachable by cancelling the job mid-run, which resets the file). -/
def envPendingFile : OrchEnv :=
  { envBase with
    file0 := { path := "src/a.ts", status := .pending, percentage := 40,
               uncoveredLines := [10, 20, 30] } }

/-- Environment whose clone step fails. -/
def envCloneFail : OrchEnv := { envBase with cloneOk := false }

/-- Loop state after one successful attempt of attOk. -/
def stOk : LoopState :=
  { attempt := 1, currentCoverage := 90, currentUncoveredLines := [],
    generatedTestPath := some "src/a.test.ts", savedCov := [(90, [])] }

/-- Loop state after three exhausted attempts of attLow. -/
def stLow : LoopState :=
  { attempt := 3, currentCoverage := 60, currentUncoveredLines := [20, 30],
    generatedTestPath := some "src/a.test.ts",
    savedCov := [(60, [20, 30]), (60, [20, 30]), (60, [20, 30])] }

/-- JobProcessor environment in which the AI touched a production source
file and it is still listed as changed at commit time. -/
def procEnvC2 : ProcEnv :=
  { jobStatus0 := .pending, repoFound := true, filesFoundOk := true,
    files0 := [{ path := "src/a.ts", status := .improving, percentage := 40,
                 uncoveredLines := [10] }],
    sandboxAnalysisOk := true, sourceMatchOk := true, cloneOk := true, aiOk := true,
    postAiChanged := ["src/a.test.ts", "src/app.ts"], allTestContentValid := true,
    sandboxTestsOk := true, testsPassed := true,
    report := { files := [{ path := "src/a.ts", linesCovered := 9, linesTotal := 10,
                            percentage := 90, uncoveredLines := [] }],
                totalCoverage := 90 },
    branchOk := true, postResetChanged := ["src/a.test.ts", "src/app.ts"],
    commitOk := true, prOk := true, prUrl := "https://github.com/u/r/pull/2" }

/-- A store with one running improvement job and one pending improvement
job for the same repository. -/
def qJobs : List QJob :=
  [ { id := "j1", repositoryId := "r1", jtype := .improvement, status := .running },
    { id := "j2", repositoryId := "r1", jtype := .improvement, status := .pending } ]

/-- An analysis-job store with one running job and one pending job. -/
def aJobs : List AQJob :=
  [ { id := "a1", status := .running }, { id := "a2", status := .pending } ]

/-! ## Theorems -/

/-- C4: cancelling a pending job does not succeed. The guard of
CancelJobCommand.execute admits pending and running jobs, but
ImprovementJob.fail delegates to canTransitionTo, which forbids
pending to failed, so the command throws the invalid-transition error on
a pending job instead of cancelling it; a running job is cancelled with
the cancellation message and the file reset, and completed or failed
jobs raise the cannot-cancel error. -/
theorem cancel_pending_job_throws_invalid_transition :
    cancelJob (some { status := .pending, error := none, prUrl := none })
        (some { path := "src/a.ts", status := .improving, percentage := 10, uncoveredLines := [1] })
      = .error "Invalid status transition from pending to failed" ∧
    cancelJob (some { status := .running, error := none, prUrl := none })
        (some { path := "src/a.ts", status := .improving, percentage := 10, uncoveredLines := [1] })
      = .ok ({ status := .failed, error := some "Job cancelled by user", prUrl := none },
             some { path := "src/a.ts", status := .pending, percentage := 10, uncoveredLines := [1] }) ∧
    cancelJob (some { status := .completed, error := none, prUrl := none }) none
      = .error "Cannot cancel job in completed state" ∧
    cancelJob (some { status := .failed, error := none, prUrl := none }) none
      = .error "Cannot cancel job in failed state" :=
  ⟨rfl, rfl, rfl, rfl⟩

/-- C5 counterexample: AnalysisJob.fail called on a pending job does not
raise an invalid-transition error; it succeeds and moves the job
directly from pending to failed, because its guard rejects only
completed and failed. -/
theorem analysisJob_fail_from_pending_succeeds :
    anaJobFail { status := .pending, error := none, filesFound := 0, filesBelowThreshold := 0 } "boom"
      = .ok { status := .failed, error := some "boom", filesFound := 0, filesBelowThreshold := 0 } :=
  rfl

/-- C5 amended: canTransitionTo admits exactly pending to running,
running to completed and running to failed; ImprovementJob.complete and
ImprovementJob.fail on a pending job raise the guarded
invalid-transition error; AnalysisJob.complete on a pending job raises a
guarded error; but AnalysisJob.fail on a pending job succeeds and
transitions the job to failed. -/
theorem status_machine_guarded_transitions :
    (∀ s t : JobStatusValue, canTransitionTo s t = true ↔
      ((s = .pending ∧ t = .running) ∨ (s = .running ∧ t = .completed) ∨
       (s = .running ∧ t = .failed))) ∧
    (∀ e p u, impJobComplete { status := .pending, error := e, prUrl := p } u
      = .error "Invalid status transition from pending to completed") ∧
    (∀ e p m, impJobFail { status := .pending, error := e, prUrl := p } m
      = .error "Invalid status transition from pending to failed") ∧
    (∀ e a b n k, anaJobComplete { status := .pending, error := e, filesFound := a, filesBelowThreshold := b } n k
      = .error "Cannot complete job in pending status") ∧
    (∀ e a b m, anaJobFail { status := .pending, error := e, filesFound := a, filesBelowThreshold := b } m
      = .ok { status := .failed, error := some m, filesFound := a, filesBelowThreshold := b }) :=
  ⟨by decide, fun _ _ _ => rfl, fun _ _ _ => rfl, fun _ _ _ _ _ => rfl, fun _ _ _ _ => rfl⟩

/-- C6 counterexample: CoverageFile.resetToPending is unguarded, so the
status transition improved to pending succeeds silently instead of
raising an error. -/
theorem resetToPending_from_improved_no_error :
    covResetToPending { path := "src/util.ts", status := .improved, percentage := 95, uncoveredLines := [] }
      = { path := "src/util.ts", status := .pending, percentage := 95, uncoveredLines := [] } :=
  rfl

/-- C6 amended: markAsImproving succeeds exactly from pending and
markAsImproved exactly from improving (storing the supplied coverage
data); any other call to these two guarded methods raises an error; but
resetToPending is unguarded and resets any status to pending, so the
reset is not limited to improving to pending. -/
theorem covfile_guarded_transitions :
    (∀ p q u, covMarkAsImproving { path := p, status := .pending, percentage := q, uncoveredLines := u }
      = .ok { path := p, status := .improving, percentage := q, uncoveredLines := u }) ∧
    (∀ p q u, covMarkAsImproving { path := p, status := .improving, percentage := q, uncoveredLines := u }
      = .error "Cannot start improving file in status: improving") ∧
    (∀ p q u, covMarkAsImproving { path := p, status := .improved, percentage := q, uncoveredLines := u }
      = .error "Cannot start improving file in status: improved") ∧
    (∀ p q u q2 u2, covMarkAsImproved { path := p, status := .improving, percentage := q, uncoveredLines := u } q2 u2
      = .ok { path := p, status := .improved, percentage := q2, uncoveredLines := u2 }) ∧
    (∀ p q u q2 u2, covMarkAsImproved { path := p, status := .pending, percentage := q, uncoveredLines := u } q2 u2
      = .error "Cannot mark as improved from status: pending") ∧
    (∀ p q u q2 u2, covMarkAsImproved { path := p, status := .improved, percentage := q, uncoveredLines := u } q2 u2
      = .error "Cannot mark as improved from status: improved") ∧
    (∀ f, covResetToPending f = { f with status := .pending }) :=
  ⟨fun _ _ _ => rfl, fun _ _ _ => rfl, fun _ _ _ => rfl,
   fun _ _ _ _ _ => rfl, fun _ _ _ _ _ => rfl, fun _ _ _ _ _ => rfl,
   fun _ => rfl⟩

theorem dedupSortAsc_sorted (l : List Nat) : List.Sorted (· < ·) (dedupSortAsc l) := by
  have hs : List.Sorted (· ≤ ·) (dedupSortAsc l) := List.sorted_insertionSort _ _
  have hn : (dedupSortAsc l).Nodup :=
    ((List.perm_insertionSort _ _).nodup_iff).mpr (List.nodup_dedup l)
  exact hs.lt_of_le hn

theorem dedupSortAsc_toFinset (l : List Nat) : (dedupSortAsc l).toFinset = l.toFinset :=
  List.toFinset.ext fun _ => by simp [dedupSortAsc]

theorem sortByPercentage_sorted (files : List FileCov) :
    List.Sorted (fun a b : FileCov => a.percentage ≤ b.percentage) (sortByPercentage files) := by
  have h1 : IsTotal FileCov (fun a b : FileCov => a.percentage ≤ b.percentage) :=
    ⟨fun a b => le_total a.percentage b.percentage⟩
  have h2 : IsTrans FileCov (fun a b : FileCov => a.percentage ≤ b.percentage) :=
    ⟨fun _ _ _ ha hb => le_trans ha hb⟩
  exact List.sorted_insertionSort _ _

theorem sortByPercentage_perm (files : List FileCov) :
    (sortByPercentage files).Perm files := List.perm_insertionSort _ _

theorem filter_keep_idem (data : List (String × IstanbulFileCov)) :
    (data.filter (fun kv => keepTsPath kv.1)).filter (fun kv => keepTsPath kv.1)
      = data.filter (fun kv => keepTsPath kv.1) := by
  simp [List.filter_filter]

/-- C8: the Istanbul parser computes, per retained file, the percentage
of statements with positive hit count over all statements times 100
rounded to two decimals, and the uncovered lines are exactly the start
lines of the zero-hit statements, without duplicates and sorted strictly
ascending; the four-statement example with hit counts 1,1,0,0 at lines
1,2,3,4 parses to 50 percent with uncovered lines 3 and 4; and entries
whose path is not a non-test .ts file are excluded from the report. -/
theorem istanbul_parser_formula_example_and_exclusions :
    parseIstanbulJson "" [("src/calc.ts",
      { statementMap := [("0", ⟨1, 1⟩), ("1", ⟨2, 2⟩), ("2", ⟨3, 3⟩), ("3", ⟨4, 4⟩)],
        s := [("0", 1), ("1", 1), ("2", 0), ("3", 0)] })]
      = { files := [{ path := "src/calc.ts", linesCovered := 2, linesTotal := 4,
                      percentage := 50, uncoveredLines := [3, 4] }],
          totalCoverage := 50 } ∧
    (∀ root data, parseIstanbulJson root data
      = parseIstanbulJson root (data.filter (fun kv => keepTsPath kv.1))) ∧
    (∀ root p cov, (parseIstanbulEntry root p cov).percentage
      = round2 (if 0 < cov.statementMap.length
          then (((cov.s.filter (fun kv => 0 < kv.2)).length : ℚ) / (cov.statementMap.length : ℚ)) * 100
          else 100)) ∧
    (∀ root p cov, List.Sorted (· < ·) (parseIstanbulEntry root p cov).uncoveredLines) ∧
    (∀ root p cov, (parseIstanbulEntry root p cov).uncoveredLines.toFinset
      = ((cov.statementMap.filter (fun kv => alistLookup cov.s kv.1 = some 0)).map
          (fun kv => kv.2.startLine)).toFinset) ∧
    (∀ root data, List.Sorted (fun a b : FileCov => a.percentage ≤ b.percentage)
      (parseIstanbulJson root data).files) := by
  refine ⟨?_, fun root data => by simp only [parseIstanbulJson, filter_keep_idem],
    fun _ _ _ => rfl, fun _ _ _ => dedupSortAsc_sorted _,
    fun _ _ _ => dedupSortAsc_toFinset _, fun _ _ => sortByPercentage_sorted _⟩
  have h1 : parseIstanbulJson "" [("src/calc.ts",
      { statementMap := [("0", ⟨1, 1⟩), ("1", ⟨2, 2⟩), ("2", ⟨3, 3⟩), ("3", ⟨4, 4⟩)],
        s := [("0", 1), ("1", 1), ("2", 0), ("3", 0)] })]
      = { files := [{ path := "src/calc.ts", linesCovered := 2, linesTotal := 4,
                      percentage := round2 (((2 : ℚ) / (4 : ℚ)) * 100), uncoveredLines := [3, 4] }],
          totalCoverage := round2 (((2 : ℚ) / (4 : ℚ)) * 100) } := rfl
  rw [h1, show round2 (((2 : ℚ) / (4 : ℚ)) * 100) = 50 by norm_num [round2, round_eq]]

/-- C7: every scanned source file absent from the parsed report appears
in the reconciled report as the synthetic entry with percentage 0,
uncovered lines [1] and 0 covered of 1 total lines; the reconciled file
list is a permutation of the parsed-plus-injected union, sorted
ascending by percentage; the aggregate total is recomputed as the
rounded ratio of summed covered lines over summed total lines of the
union; and the one-parsed-file-at-90 plus one-scanned-file example
reconciles to both files with the second at 0 and total 81.82. -/
theorem reconciliation_injects_recomputes_and_resorts :
    (∀ report scanned p, p ∈ scanned → p ∉ report.files.map (fun f => f.path) →
      syntheticEntry p ∈ (reconcile report scanned).files) ∧
    (∀ report scanned, (reconcile report scanned).files.Perm (injectMissing report.files scanned)) ∧
    (∀ report scanned, List.Sorted (fun a b : FileCov => a.percentage ≤ b.percentage)
      (reconcile report scanned).files) ∧
    (∀ report scanned, (reconcile report scanned).totalCoverage =
      (if 0 < (((injectMissing report.files scanned).map (fun f => f.linesTotal)).sum : Nat)
       then round2 ((((((injectMissing report.files scanned).map (fun f => f.linesCovered)).sum : Nat) : ℚ)
          / ((((injectMissing report.files scanned).map (fun f => f.linesTotal)).sum : Nat) : ℚ)) * 100)
       else 0)) ∧
    reconcile { files := [{ path := "src/a.ts", linesCovered := 9, linesTotal := 10,
                            percentage := 90, uncoveredLines := [3] }], totalCoverage := 90 }
        ["src/a.ts", "src/b.ts"]
      = { files := [{ path := "src/b.ts", linesCovered := 0, linesTotal := 1,
                      percentage := 0, uncoveredLines := [1] },
                    { path := "src/a.ts", linesCovered := 9, linesTotal := 10,
                      percentage := 90, uncoveredLines := [3] }],
          totalCoverage := 4091 / 50 } := by
  refine ⟨?_, fun report scanned => sortByPercentage_perm _,
    fun report scanned => sortByPercentage_sorted _, fun report scanned => rfl, ?_⟩
  case refine_2 =>
    have h1 : reconcile
          { files := [{ path := "src/a.ts", linesCovered := 9, linesTotal := 10,
                        percentage := 90, uncoveredLines := [3] }],
            totalCoverage := 90 }
          ["src/a.ts", "src/b.ts"]
        = { files := [{ path := "src/b.ts", linesCovered := 0, linesTotal := 1,
                        percentage := 0, uncoveredLines := [1] },
                      { path := "src/a.ts", linesCovered := 9, linesTotal := 10,
                        percentage := 90, uncoveredLines := [3] }],
            totalCoverage := round2 (((9 : ℚ) / (11 : ℚ)) * 100) } := rfl
    rw [h1, show round2 (((9 : ℚ) / (11 : ℚ)) * 100) = 4091 / 50 by norm_num [round2, round_eq]]
  intro report scanned p hp hnp
  have hmem : syntheticEntry p ∈ injectMissing report.files scanned := by
    unfold injectMissing
    refine List.mem_append_right _ (List.mem_map_of_mem _ ?_)
    refine List.mem_filter.mpr ⟨hp, ?_⟩
    simp [hnp]
  exact (sortByPercentage_perm _).mem_iff.mpr hmem

/-- Witness: the reconciliation theorem instantiated on the concrete
report with one parsed file and a scan that finds a second file. -/
theorem reconciliation_injects_recomputes_and_resorts_witness :
    syntheticEntry "src/b.ts" ∈ (reconcile
      { files := [{ path := "src/a.ts", linesCovered := 9, linesTotal := 10,
                    percentage := 90, uncoveredLines := [3] }],
        totalCoverage := 90 }
      ["src/a.ts", "src/b.ts"]).files :=
  reconciliation_injects_recomputes_and_resorts.1
    { files := [{ path := "src/a.ts", linesCovered := 9, linesTotal := 10,
                  percentage := 90, uncoveredLines := [3] }],
      totalCoverage := 90 }
    ["src/a.ts", "src/b.ts"] "src/b.ts" (by decide) (by decide)

@[simp]
theorem applySaves_jobStatus (w : World) (st : LoopState) :
    (applySaves w st).jobStatus = w.jobStatus := by
  unfold applySaves; cases st.savedCov.getLast? <;> rfl

@[simp]
theorem applySaves_jobError (w : World) (st : LoopState) :
    (applySaves w st).jobError = w.jobError := by
  unfold applySaves; cases st.savedCov.getLast? <;> rfl

@[simp]
theorem applySaves_jobPrUrl (w : World) (st : LoopState) :
    (applySaves w st).jobPrUrl = w.jobPrUrl := by
  unfold applySaves; cases st.savedCov.getLast? <;> rfl

@[simp]
theorem applySaves_fileStatus (w : World) (st : LoopState) :
    (applySaves w st).fileStatus = w.fileStatus := by
  unfold applySaves; cases st.savedCov.getLast? <;> rfl

@[simp]
theorem applySaves_commits (w : World) (st : LoopState) :
    (applySaves w st).commits = w.commits := by
  unfold applySaves; cases st.savedCov.getLast? <;> rfl

@[simp]
theorem applySaves_prs (w : World) (st : LoopState) :
    (applySaves w st).prs = w.prs := by
  unfold applySaves; cases st.savedCov.getLast? <;> rfl

@[simp]
theorem applySaves_clonePathSet (w : World) (st : LoopState) :
    (applySaves w st).clonePathSet = w.clonePathSet := by
  unfold applySaves; cases st.savedCov.getLast? <;> rfl

@[simp]
theorem applySaves_cleanupRan (w : World) (st : LoopState) :
    (applySaves w st).cleanupRan = w.cleanupRan := by
  unfold applySaves; cases st.savedCov.getLast? <;> rfl

/-- C10: when none of the three matchers finds the target file in the
report, the iteration falls back to the aggregate totalCoverage: the
threshold comparison and the exit decision are made against the
aggregate, the remaining-uncovered-line set is left unchanged, and no
coverage-file save is recorded in that iteration. -/
theorem loop_fallback_uses_total_coverage :
    ∀ cfg env st, env.crash = none →
      (env.expectedTestExists = true ∨ env.newTestFiles ≠ []) →
      env.validContent = true →
      findFileCoverage env.report.files cfg.targetPath = none →
      ∃ st2, loopBody cfg env st =
          (if env.report.totalCoverage ≥ cfg.coverageThreshold then .exit st2 else .next st2) ∧
        st2.currentCoverage = env.report.totalCoverage ∧
        st2.currentUncoveredLines = st.currentUncoveredLines ∧
        st2.savedCov = st.savedCov ∧
        st2.attempt = st.attempt + 1 := by
  intro cfg env st hc hfiles hvalid hfind
  refine ⟨{ st with
              attempt := st.attempt + 1
              generatedTestPath := some (env.newTestFiles.headD cfg.expectedTestPath)
              currentCoverage := env.report.totalCoverage },
          ?_, rfl, rfl, rfl, rfl⟩
  have h1 : ¬ (¬ env.expectedTestExists = true ∧ env.newTestFiles = []) := by
    rcases hfiles with h | h
    · exact fun hcon => hcon.1 h
    · exact fun hcon => h hcon.2
  unfold loopBody
  rw [hc]
  simp only [h1, if_false, hvalid, hfind]
  simp

/-- Witness: the fallback theorem instantiated on the baseline
configuration and a report with no matching entry. -/
theorem loop_fallback_uses_total_coverage_witness :
    ∃ st2, loopBody (orchCfg envBase) attNoMatch (orchSt0 envBase) =
        (if attNoMatch.report.totalCoverage ≥ (orchCfg envBase).coverageThreshold
         then .exit st2 else .next st2) ∧
      st2.currentCoverage = attNoMatch.report.totalCoverage ∧
      st2.currentUncoveredLines = (orchSt0 envBase).currentUncoveredLines ∧
      st2.savedCov = (orchSt0 envBase).savedCov ∧
      st2.attempt = (orchSt0 envBase).attempt + 1 :=
  loop_fallback_uses_total_coverage (orchCfg envBase) attNoMatch (orchSt0 envBase)
    rfl (Or.inr (by decide)) rfl (by decide)

theorem loopBody_next_attempt (cfg : LoopCfg) (env : AttemptEnv) (st st2 : LoopState)
    (h : loopBody cfg env st = .next st2) : st2.attempt = st.attempt + 1 := by
  unfold loopBody at h
  cases hc : env.crash with
  | some m => rw [hc] at h; cases h
  | none =>
    rw [hc] at h
    simp only at h
    split at h
    · split at h <;> cases h
      rfl
    · split at h
      · split at h <;> cases h
        rfl
      · split at h <;> split at h <;> cases h <;> rfl

theorem loopBody_exit_attempt (cfg : LoopCfg) (env : AttemptEnv) (st st2 : LoopState)
    (h : loopBody cfg env st = .exit st2) : st2.attempt = st.attempt + 1 := by
  unfold loopBody at h
  cases hc : env.crash with
  | some m => rw [hc] at h; cases h
  | none =>
    rw [hc] at h
    simp only at h
    split at h
    · split at h <;> cases h
    · split at h
      · split at h <;> cases h
      · split at h <;> split at h <;> cases h <;> rfl

/-- C1: the retry loop runs at most maxRetries attempts; it performs no
iteration at all once currentCoverage meets the threshold; when the
target file is found in the measured report, the state passed to the
next iteration carries exactly the freshly measured percentage and
remaining uncovered lines (with a coverage-file save recorded), and the
iteration exits early exactly when the fresh percentage meets the
threshold; and when the loop finishes below the threshold but with a
generated test file, executeJob still commits, opens a pull request and
completes the job with the last achieved coverage. -/
theorem retry_loop_bounded_early_exit_fresh_lines_and_proceeds :
    (∀ (cfg : LoopCfg) (envs : Nat → AttemptEnv) (fuel : Nat) (st : LoopState),
      st.attempt ≤ cfg.maxRetries →
      (improveLoopAux cfg envs fuel st).state.attempt ≤ cfg.maxRetries) ∧
    (∀ (cfg : LoopCfg) (envs : Nat → AttemptEnv) (fuel : Nat) (st : LoopState),
      cfg.coverageThreshold ≤ st.currentCoverage →
      improveLoopAux cfg envs fuel st = .finished st) ∧
    (∀ (cfg : LoopCfg) (env : AttemptEnv) (st : LoopState) (fc : FileCov),
      env.crash = none →
      (env.expectedTestExists = true ∨ env.newTestFiles ≠ []) →
      env.validContent = true →
      findFileCoverage env.report.files cfg.targetPath = some fc →
      ∃ st2, loopBody cfg env st =
          (if fc.percentage ≥ cfg.coverageThreshold then .exit st2 else .next st2) ∧
        st2.currentCoverage = fc.percentage ∧
        st2.currentUncoveredLines = fc.uncoveredLines ∧
        st2.savedCov = st.savedCov ++ [(fc.percentage, fc.uncoveredLines)]) ∧
    (∀ (env : OrchEnv) (st : LoopState) (p : String),
      env.jobStatus0 = .pending → env.file0.status = .improving →
      env.repoFound = true → env.fileFound = true → env.cloneOk = true →
      env.installOk = true → env.branchOk = true → env.sourceExists = true →
      improveLoop (orchCfg env) env.attempts (orchSt0 env) = .finished st →
      st.generatedTestPath = some p →
      env.postLoopChanged.filter (fun f => ¬ isTestFile f) = [] →
      env.commitOk = true → env.prOk = true → env.prUrlOk = true →
      (orchExecuteJob env).world.jobStatus = .completed ∧
      (orchExecuteJob env).world.commits = 1 ∧
      (orchExecuteJob env).world.prs = 1 ∧
      (orchExecuteJob env).world.fileStatus = .improved ∧
      (orchExecuteJob env).world.fileCov = st.currentCoverage ∧
      (orchExecuteJob env).escaped = none) := by
  refine ⟨?_, ?_, ?_, ?_⟩
  · intro cfg envs fuel
    induction fuel with
    | zero => intro st h; exact h
    | succ n ih =>
      intro st h
      unfold improveLoopAux
      split
      · rename_i hguard
        cases hb : loopBody cfg (envs st.attempt) st with
        | next st2 =>
          have ha := loopBody_next_attempt _ _ _ _ hb
          exact ih st2 (by omega)
        | exit st2 =>
          have ha := loopBody_exit_attempt _ _ _ _ hb
          have := hguard.1
          simp only [LoopExit.state, ha]
          omega
        | failure m => exact h
      · exact h
  · intro cfg envs fuel st h
    cases fuel with
    | zero => rfl
    | succ n =>
      unfold improveLoopAux
      exact if_neg fun hcon => absurd hcon.2 (not_lt.mpr h)
  · intro cfg env st fc hc hfiles hvalid hfind
    have h1 : ¬ (¬ env.expectedTestExists = true ∧ env.newTestFiles = []) := by
      rcases hfiles with h | h
      · exact fun hcon => hcon.1 h
      · exact fun hcon => h hcon.2
    refine ⟨{ st with
                attempt := st.attempt + 1
                generatedTestPath := some (env.newTestFiles.headD cfg.expectedTestPath)
                currentCoverage := fc.percentage
                currentUncoveredLines := fc.uncoveredLines
                savedCov := st.savedCov ++ [(fc.percentage, fc.uncoveredLines)] },
            ?_, rfl, rfl, rfl⟩
    unfold loopBody
    rw [hc]
    simp only [h1, if_false, hvalid, hfind]
    simp
  · intro env st p h1 h2 h3 h4 h5 h6 h7 h8 h9 h10 h11 h12 h13 h14
    have htry : orchTry env = (wImproved env st, none) := by
      unfold orchTry
      simp only [initWorld, h1, h3, h4, h5, h6, h7, h8, h9, h10, h11, h12, h13, h14]
      simp [canTransitionTo, wCompleted, wPr, wCommit, wLoop, wClone, wRun, initWorld, h2]
    unfold orchExecuteJob
    rw [htry]
    simp [runFinally, wImproved, wCompleted, wPr, wCommit, wLoop, wClone, wRun, initWorld]

/-- Witness: the exhausted-retries clause instantiated on the
environment whose three attempts all end at 60 percent, below the
threshold of 80: the job still completes with one commit and one PR at
coverage 60. -/
theorem retry_loop_bounded_early_exit_fresh_lines_and_proceeds_witness :
    (orchExecuteJob envLow).world.jobStatus = .completed ∧
    (orchExecuteJob envLow).world.commits = 1 ∧
    (orchExecuteJob envLow).world.prs = 1 ∧
    (orchExecuteJob envLow).world.fileStatus = .improved ∧
    (orchExecuteJob envLow).world.fileCov = stLow.currentCoverage ∧
    (orchExecuteJob envLow).escaped = none :=
  retry_loop_bounded_early_exit_fresh_lines_and_proceeds.2.2.2 envLow stLow "src/a.test.ts"
    rfl rfl rfl rfl rfl rfl rfl rfl (by decide) rfl (by decide) rfl rfl rfl

/-- C2 counterexample: in the JobProcessor improvement pipeline a
production source file that is still listed as changed after the
revert pass is simply committed: the job completes with one commit
containing the non-test file and one pull request, instead of failing
with a scope-violation error. -/
theorem processor_commits_remaining_nontest_file :
    isTestFile "src/app.ts" = false ∧
    "src/app.ts" ∈ (procExecuteImprovement procEnvC2).world.committedFiles ∧
    (procExecuteImprovement procEnvC2).world.jobStatus = .completed ∧
    (procExecuteImprovement procEnvC2).world.jobError = none ∧
    (procExecuteImprovement procEnvC2).world.commits = 1 ∧
    (procExecuteImprovement procEnvC2).world.prs = 1 ∧
    (procExecuteImprovement procEnvC2).escaped = none := by
  decide

/-- C2 amended: in the JobOrchestrator pipeline, when a non-test file
remains changed after the revert pass, the job fails with the
scope-violation message, zero commits and zero pull requests are
created, the target coverage file is reset to pending, and the working
directory is cleaned up. -/
theorem orchestrator_scope_violation_hard_fails :
    ∀ (env : OrchEnv) (st : LoopState) (p : String),
      env.jobStatus0 = .pending →
      env.repoFound = true → env.fileFound = true → env.cloneOk = true →
      env.installOk = true → env.branchOk = true → env.sourceExists = true →
      improveLoop (orchCfg env) env.attempts (orchSt0 env) = .finished st →
      st.generatedTestPath = some p →
      env.postLoopChanged.filter (fun f => ¬ isTestFile f) ≠ [] →
      (orchExecuteJob env).world.jobStatus = .failed ∧
      (orchExecuteJob env).world.jobError
        = some "Invalid files modified (only test files allowed)" ∧
      (orchExecuteJob env).world.commits = 0 ∧
      (orchExecuteJob env).world.prs = 0 ∧
      (orchExecuteJob env).world.fileStatus = .pending ∧
      (orchExecuteJob env).world.cleanupRan = true ∧
      (orchExecuteJob env).escaped = none := by
  intro env st p h1 h3 h4 h5 h6 h7 h8 h9 h10 h11
  have htry : orchTry env =
      (wLoop env st, some "Invalid files modified (only test files allowed)") := by
    unfold orchTry
    simp only [initWorld, h1, h3, h4, h5, h6, h7, h8, h9, h10]
    rw [if_pos h11]
    simp [canTransitionTo]
  unfold orchExecuteJob
  rw [htry]
  simp [canTransitionTo, runFinally, h4, wLoop, wClone, wRun, initWorld]

/-- Witness: the scope-violation theorem instantiated on the concrete
environment in which src/evil.ts remains changed after the revert
pass. -/
theorem orchestrator_scope_violation_hard_fails_witness :
    (orchExecuteJob envScope).world.jobStatus = .failed ∧
    (orchExecuteJob envScope).world.jobError
      = some "Invalid files modified (only test files allowed)" ∧
    (orchExecuteJob envScope).world.commits = 0 ∧
    (orchExecuteJob envScope).world.prs = 0 ∧
    (orchExecuteJob envScope).world.fileStatus = .pending ∧
    (orchExecuteJob envScope).world.cleanupRan = true ∧
    (orchExecuteJob envScope).escaped = none :=
  orchestrator_scope_violation_hard_fails envScope stOk "src/a.test.ts"
    rfl rfl rfl rfl rfl rfl rfl (by decide) rfl (by decide)

@[simp]
theorem wRun_jobStatus (env : OrchEnv) : (wRun env).jobStatus = .running := rfl

@[simp]
theorem wClone_jobStatus (env : OrchEnv) : (wClone env).jobStatus = .running := rfl

@[simp]
theorem wLoop_jobStatus (env : OrchEnv) (st : LoopState) :
    (wLoop env st).jobStatus = .running := by
  simp [wLoop]

@[simp]
theorem wCommit_jobStatus (env : OrchEnv) (st : LoopState) :
    (wCommit env st).jobStatus = .running := by
  simp [wCommit]

@[simp]
theorem wPr_jobStatus (env : OrchEnv) (st : LoopState) :
    (wPr env st).jobStatus = .running := by
  simp [wPr]

@[simp]
theorem wCompleted_fileStatus (env : OrchEnv) (st : LoopState) :
    (wCompleted env st).fileStatus = env.file0.status := by
  simp [wCompleted, wPr, wCommit, wLoop, wClone, wRun, initWorld]

@[simp]
theorem runFinally_jobStatus (w : World) : (runFinally w).jobStatus = w.jobStatus := by
  unfold runFinally; split <;> rfl

@[simp]
theorem runFinally_jobError (w : World) : (runFinally w).jobError = w.jobError := by
  unfold runFinally; split <;> rfl

@[simp]
theorem runFinally_fileStatus (w : World) : (runFinally w).fileStatus = w.fileStatus := by
  unfold runFinally; split <;> rfl

theorem runFinally_cleanup (w : World) :
    (runFinally w).clonePathSet = true → (runFinally w).cleanupRan = true := by
  unfold runFinally; split <;> simp_all

/-- Whenever the try block of executeJob throws under a pending job whose
target file is in improving status, the job is still running at the
throw point, so the catch handler can fail it. -/
theorem orchTry_error_running (env : OrchEnv) (w : World) (m : String)
    (h1 : env.jobStatus0 = .pending) (h2 : env.file0.status = .improving)
    (h : orchTry env = (w, some m)) : w.jobStatus = .running := by
  unfold orchTry initWorld at h
  rw [h1] at h
  rw [if_neg (fun hcon => hcon rfl)] at h
  cases hb1 : env.repoFound with
  | false => rw [hb1] at h; rw [if_pos (by decide)] at h; cases h; simp
  | true =>
  rw [hb1] at h; rw [if_neg (by decide)] at h
  cases hb2 : env.fileFound with
  | false => rw [hb2] at h; rw [if_pos (by decide)] at h; cases h; simp
  | true =>
  rw [hb2] at h; rw [if_neg (by decide)] at h
  cases hb3 : env.cloneOk with
  | false => rw [hb3] at h; rw [if_pos (by decide)] at h; cases h; simp
  | true =>
  rw [hb3] at h; rw [if_neg (by decide)] at h
  cases hb4 : env.installOk with
  | false => rw [hb4] at h; rw [if_pos (by decide)] at h; cases h; simp
  | true =>
  rw [hb4] at h; rw [if_neg (by decide)] at h
  cases hb5 : env.branchOk with
  | false => rw [hb5] at h; rw [if_pos (by decide)] at h; cases h; simp
  | true =>
  rw [hb5] at h; rw [if_neg (by decide)] at h
  cases hb6 : env.sourceExists with
  | false => rw [hb6] at h; rw [if_pos (by decide)] at h; cases h; simp
  | true =>
  rw [hb6] at h; rw [if_neg (by decide)] at h
  cases hlp : improveLoop (orchCfg env) env.attempts (orchSt0 env) with
  | errored st m2 => rw [hlp] at h; simp only [] at h; cases h; simp
  | finished st =>
  rw [hlp] at h
  simp only [] at h
  cases hgp : st.generatedTestPath with
  | none => rw [hgp] at h; simp only [] at h; cases h; simp
  | some p =>
  rw [hgp] at h
  simp only [] at h
  by_cases hf : env.postLoopChanged.filter (fun f => ¬ isTestFile f) ≠ []
  · rw [if_pos hf] at h; cases h; simp
  · rw [if_neg hf] at h
    cases hb7 : env.commitOk with
    | false => rw [hb7] at h; rw [if_pos (by decide)] at h; cases h; simp
    | true =>
    rw [hb7] at h; rw [if_neg (by decide)] at h
    cases hb8 : env.prOk with
    | false => rw [hb8] at h; rw [if_pos (by decide)] at h; cases h; simp
    | true =>
    rw [hb8] at h; rw [if_neg (by decide)] at h
    cases hb9 : env.prUrlOk with
    | false => rw [hb9] at h; rw [if_pos (by decide)] at h; cases h; simp
    | true =>
    rw [hb9] at h; rw [if_neg (by decide)] at h
    rw [if_neg (fun hcon => hcon (by simp [canTransitionTo]))] at h
    rw [if_neg (show ¬ ((wCompleted env st).fileStatus ≠ .improving) by simp [h2])] at h
    cases h

/-- C3 counterexample: the catch handler of executeJob is not
exception-safe for exceptions raised after job.complete (the
markAsImproved call, the post-completion save, or the progress callback
all run inside the try after the status is already completed). Here the
exception comes from markAsImproved on a file not in improving status:
it is caught, job.fail then throws inside the catch handler because
completed admits no transition, and the job remains completed with no
recorded error instead of being transitioned to failed; only the
cleanup still runs. -/
theorem exception_after_complete_leaves_job_completed :
    (orchExecuteJob envPendingFile).escaped
      = some "Invalid status transition from completed to failed" ∧
    (orchExecuteJob envPendingFile).world.jobStatus = .completed ∧
    (orchExecuteJob envPendingFile).world.jobError = none ∧
    (orchExecuteJob envPendingFile).world.cleanupRan = true := by
  decide

/-- C3 amended: for a pending job whose target file is still improving,
no exception escapes executeJob; the working directory is cleaned up
whenever the clone path was assigned, on success and failure alike; and
whenever the try block throws, the job is failed with the captured
message and the target coverage file, when found, is reset to pending. -/
theorem failed_job_resets_file_and_cleans_up :
    ∀ env : OrchEnv, env.jobStatus0 = .pending → env.file0.status = .improving →
      (orchExecuteJob env).escaped = none ∧
      ((orchExecuteJob env).world.clonePathSet = true →
        (orchExecuteJob env).world.cleanupRan = true) ∧
      (∀ w m, orchTry env = (w, some m) →
        (orchExecuteJob env).world.jobStatus = .failed ∧
        (orchExecuteJob env).world.jobError = some m ∧
        (env.fileFound = true → (orchExecuteJob env).world.fileStatus = .pending)) := by
  intro env h1 h2
  rcases htry : orchTry env with ⟨w, e⟩
  cases e with
  | none =>
    have hexec : orchExecuteJob env = { world := runFinally w, escaped := none } := by
      unfold orchExecuteJob; rw [htry]
    refine ⟨by rw [hexec], by rw [hexec]; exact runFinally_cleanup w, ?_⟩
    intro w2 m2 hcon
    cases hcon
  | some m =>
    have hrun := orchTry_error_running env w m h1 h2 htry
    by_cases hff : env.fileFound = true
    · have hexec : orchExecuteJob env =
          { world := runFinally
              { w with jobStatus := .failed, jobError := some m, fileStatus := .pending },
            escaped := none } := by
        unfold orchExecuteJob
        rw [htry]
        simp [hrun, canTransitionTo, hff]
      refine ⟨by rw [hexec], by rw [hexec]; exact runFinally_cleanup _, ?_⟩
      intro w2 m2 hcon
      cases hcon
      exact ⟨by rw [hexec]; simp, by rw [hexec]; simp, fun _ => by rw [hexec]; simp⟩
    · have hexec : orchExecuteJob env =
          { world := runFinally { w with jobStatus := .failed, jobError := some m },
            escaped := none } := by
        unfold orchExecuteJob
        rw [htry]
        simp [hrun, canTransitionTo, hff]
      refine ⟨by rw [hexec], by rw [hexec]; exact runFinally_cleanup _, ?_⟩
      intro w2 m2 hcon
      cases hcon
      exact ⟨by rw [hexec]; simp, by rw [hexec]; simp, fun hcon2 => absurd hcon2 hff⟩

/-- Witness: the error-handling theorem instantiated on the environment
whose clone step fails. -/
theorem failed_job_resets_file_and_cleans_up_witness :
    (orchExecuteJob envCloneFail).escaped = none ∧
    (orchExecuteJob envCloneFail).world.jobStatus = .failed ∧
    (orchExecuteJob envCloneFail).world.jobError = some "Failed to clone repository" ∧
    (orchExecuteJob envCloneFail).world.fileStatus = .pending := by
  have h := failed_job_resets_file_and_cleans_up envCloneFail rfl rfl
  have h3 := h.2.2 (wClone envCloneFail) "Failed to clone repository" (by decide)
  exact ⟨h.1, h3.1, h3.2.1, h3.2.2 rfl⟩

/-- C9: the process-next-job guards: the analysis processor dequeues
nothing whenever any running analysis job exists; the job processor
returns none when the first pending job is an analysis job and a running
analysis job exists, and when it is an improvement job and a running
improvement job for the same repository exists; and whatever is dequeued
is exactly the single first pending job. -/
theorem single_running_job_guards :
    (∀ (jobs : List AQJob) (j : AQJob), j ∈ jobs → j.status = .running →
      analysisProcessNext jobs = none) ∧
    (∀ (jobs : List QJob) (job : QJob) (rest : List QJob),
      findPendingJobs jobs = job :: rest → job.jtype = .analysis →
      (∃ j ∈ jobs, j.jtype = .analysis ∧ j.status = .running) →
      processNextJob jobs = none) ∧
    (∀ (jobs : List QJob) (job : QJob) (rest : List QJob),
      findPendingJobs jobs = job :: rest → job.jtype = .improvement →
      (∃ j ∈ jobs, j.jtype = .improvement ∧ j.status = .running ∧
        j.repositoryId = job.repositoryId) →
      processNextJob jobs = none) ∧
    (∀ (jobs : List QJob) (r : QJob), processNextJob jobs = some r →
      (findPendingJobs jobs).head? = some r ∧ r.status = .pending) := by
  refine ⟨?_, ?_, ?_, ?_⟩
  · intro jobs j hj hrun
    unfold analysisProcessNext
    cases hp : jobs.filter (fun x => x.status = .pending) with
    | nil => rfl
    | cons job rest =>
      simp only []
      have hmem : j ∈ jobs.filter (fun x => x.status = .running) :=
        List.mem_filter.mpr ⟨hj, by simp [hrun]⟩
      rw [if_pos (List.length_pos.mpr (List.ne_nil_of_mem hmem))]
  · rintro jobs job rest hpend htype ⟨j, hj, hjt, hjs⟩
    unfold processNextJob
    rw [hpend]
    simp only []
    rw [htype]
    simp only []
    have hmem : j ∈ findRunningJobs jobs .analysis :=
      List.mem_filter.mpr ⟨hj, by simp [hjt, hjs]⟩
    rw [if_pos (List.length_pos.mpr (List.ne_nil_of_mem hmem))]
  · rintro jobs job rest hpend htype ⟨j, hj, hjt, hjs, hjr⟩
    unfold processNextJob
    rw [hpend]
    simp only []
    rw [htype]
    simp only []
    have hmem : j ∈ (findRunningJobs jobs .improvement).filter
        (fun x => x.repositoryId = job.repositoryId) :=
      List.mem_filter.mpr ⟨List.mem_filter.mpr ⟨hj, by simp [hjt, hjs]⟩, by simp [hjr]⟩
    rw [if_pos (List.length_pos.mpr (List.ne_nil_of_mem hmem))]
  · intro jobs r h
    unfold processNextJob at h
    cases hp : findPendingJobs jobs with
    | nil => rw [hp] at h; cases h
    | cons job rest =>
      rw [hp] at h
      simp only [] at h
      have hjobmem : job ∈ findPendingJobs jobs := by
        rw [hp]; exact List.mem_cons_self _ _
      have hjobpending : job.status = .pending := by
        have := (List.mem_filter.mp hjobmem).2
        simpa using this
      cases ht : job.jtype with
      | analysis =>
        rw [ht] at h
        simp only [] at h
        split at h
        · cases h
        · cases h; exact ⟨rfl, hjobpending⟩
      | improvement =>
        rw [ht] at h
        simp only [] at h
        split at h
        · cases h
        · cases h; exact ⟨rfl, hjobpending⟩

/-- Witness: the guard theorem instantiated on a store with one running
job and one pending job. -/
theorem single_running_job_guards_witness :
    analysisProcessNext aJobs = none ∧ processNextJob qJobs = none := by
  constructor
  · exact single_running_job_guards.1 aJobs { id := "a1", status := .running }
      (by decide) rfl
  · exact single_running_job_guards.2.2.1 qJobs
      { id := "j2", repositoryId := "r1", jtype := .improvement, status := .pending } []
      (by decide) rfl
      ⟨{ id := "j1", repositoryId := "r1", jtype := .improvement, status := .running },
        by decide, rfl, rfl, rfl⟩

end CoverageImprover
